import Mathlib

/-!
Shallow embedding of the Identity/Project/Task state-management subsystem of
the productivity web application (managers in
app/helper/classes/database/: ProjectManager, TaskManager,
ProfileIdentityManager; models in app/database/models.py).

Modelling conventions:
* SQLAlchemy rows become Lean structures; the relational store becomes an
  explicit state value (a list of rows per table).  Relationship collections
  (project.tasks, identity.projects, profile.identities) are recovered by
  filtering on the foreign-key column, in insertion order.
* Each manager method becomes a function from the committed state to a
  response * new committed state.  The method body mutates a session copy;
  `commit` makes the session copy the new committed state, `rollback`
  returns the original committed state.  `session.add` and
  `session.flush` are no-ops in this model (staged changes are already
  visible in the session copy).  Store-level write exceptions (the
  `except` arms around plain commits) are not modelled: a commit of staged
  changes always succeeds.
* Python dates become Int day counts (ordinal days); `date.today()` is an
  explicit `today` parameter.  `(d1 - d2).days` becomes `d1 - d2`.
* Python `None` / missing keyword arguments become `Option`; a falsy id
  (`if not project_id`) is modelled as the id 0.
* The standardized response dictionaries from response_schemas.py become
  the `Res` structure; payload entries are returned as extra tuple
  components where a claim needs them.
* `str.strip()` becomes `pyStrip` (drop leading and trailing whitespace
  characters); `len` on a Python string counts the same characters as
  `String.length`.
-/

namespace Fssd

/-- `str.strip()` on the character list: drop leading and trailing
whitespace. -/
def stripChars (cs : List Char) : List Char :=
  ((cs.dropWhile Char.isWhitespace).reverse.dropWhile Char.isWhitespace).reverse

/-- Python's `str.strip()` with no arguments. -/
def pyStrip (s : String) : String := String.mk (stripChars s.data)

/-- Response envelope from response_schemas.py: `{success, msg, payload}`;
the payload is carried separately by each operation that returns one. -/
structure Res where
  success : Bool
  msg : String
deriving DecidableEq, Repr

/-- `success_res` from response_schemas.py (payload handled separately). -/
def success_res (msg : String) : Res := { success := true, msg := msg }

/-- `error_res` from response_schemas.py. -/
def error_res (msg : String) : Res := { success := false, msg := msg }

/-- The `Status` enum from models.py. -/
inductive Status
  | not_started
  | in_progress
  | completed
deriving DecidableEq, Repr

/-- The `Difficulty` enum from models.py. -/
inductive Difficulty
  | easy
  | medium
  | hard
deriving DecidableEq, Repr

/-- The `Task` model row (models.py). `due_date` is an Int day count. -/
structure Task where
  id : Nat
  name : String
  project_id : Nat
  due_date : Int
  difficulty : Difficulty
  is_complete : Bool
deriving DecidableEq, Repr

/-- The `Project` model row (models.py).  Dates are Int day counts. -/
structure Project where
  id : Nat
  owner_id : Nat
  identity_id : Nat
  name : String
  is_active : Bool
  description : String
  start_date : Int
  end_date : Int
  status : Status
deriving DecidableEq, Repr

/-- The `ProfileIdentity` model row (models.py). -/
structure ProfileIdentity where
  id : Nat
  profile_id : Nat
  template_id : Nat
  is_active : Bool
  custom_name : String
deriving DecidableEq, Repr

/-- The `IdentityTemplate` model row (models.py), restricted to the fields
the embedded operations read. -/
structure IdentityTemplate where
  id : Nat
  name : String
deriving DecidableEq, Repr

/-- The committed store for the project/task claims: the `projects` and
`tasks` tables, in insertion order. -/
structure DB where
  projects : List Project
  tasks : List Task
deriving DecidableEq, Repr

/-- The relationship collection `project.tasks` for the project with id
`pid`: the tasks whose foreign key points at it, in insertion order. -/
def tasksOf (db : DB) (pid : Nat) : List Task :=
  db.tasks.filter (fun t => t.project_id = pid)

/-- The relationship collection `identity.projects` for the identity with
id `iid`. -/
def projectsOf (db : DB) (iid : Nat) : List Project :=
  db.projects.filter (fun p => p.identity_id = iid)

/-- `session.get(Project, project_id)`: primary-key lookup. -/
def findProject (db : DB) (pid : Nat) : Option Project :=
  db.projects.find? (fun p => p.id = pid)

/-- `session.get(Task, task_id)`: primary-key lookup. -/
def findTask (db : DB) (tid : Nat) : Option Task :=
  db.tasks.find? (fun t => t.id = tid)

/-- The status recomputation rule at the heart of
`ProjectManager.update_project_status`: `NOT_STARTED` when the task list is
empty, `COMPLETED` when `all(task.is_complete for task in tasks)`, else
`IN_PROGRESS`. -/
def derivedStatus (tasks : List Task) : Status :=
  if tasks.length = 0 then Status.not_started
  else if tasks.all (fun t => t.is_complete) then Status.completed
  else Status.in_progress

/-- Write `status` onto every projects-table row with id `pid` (the staged
`project.status = ...; session.add(project)` effect). -/
def setProjectStatus (db : DB) (pid : Nat) (st : Status) : DB :=
  let newProjects := db.projects.map
    (fun p => if p.id = pid then { p with status := st } else p)
  { db with projects := newProjects }

/-- `ProjectManager.update_project_status` (ProjectManager.py lines
286-328).  Recomputes the status of project `project_id` from its task set
and stages (does not commit) the change; the caller owns the transaction. -/
def update_project_status (db : DB) (project_id : Nat) : Res × DB :=
  if project_id = 0 then (error_res "Project not given...", db)
  else
    match findProject db project_id with
    | none => (error_res "Project not found...", db)
    | some _ =>
        let tasks := tasksOf db project_id
        (success_res "Project status updated!",
          setProjectStatus db project_id (derivedStatus tasks))

/-- Keyword arguments of `TaskManager.create_task` after type coercion
(name, project_id, due_date, difficulty); a missing/falsy project id is 0. -/
structure TaskInput where
  name : String
  project_id : Nat
  due_date : Int
  difficulty : Difficulty
deriving DecidableEq, Repr

/-- The `Task` row staged by `create_task` (is_complete defaults to
False per the models.py column default); `newId` is the primary key the
flush assigns. -/
def mkTask (newId : Nat) (raw : TaskInput) : Task :=
  { id := newId
    name := pyStrip raw.name
    project_id := raw.project_id
    due_date := raw.due_date
    difficulty := raw.difficulty
    is_complete := false }

/-- `TaskManager.create_task` (TaskManager.py lines 34-110): validates,
stages the new task, flushes, runs `update_project_status` inside the same
transaction, and commits both or rolls both back. -/
def create_task (db : DB) (today : Int) (newId : Nat) (raw : TaskInput) :
    Res × DB :=
  if raw.name = "" then (error_res "Task name not given...", db)
  else if ¬ (5 < (pyStrip raw.name).length ∧ (pyStrip raw.name).length < 100) then
    (error_res "Invalid task name not given...", db)
  else if raw.project_id = 0 then (error_res "Project id not given...", db)
  else if raw.due_date < today then (error_res "Task is already overdue...", db)
  else
    let session : DB := { db with tasks := db.tasks ++ [mkTask newId raw] }
    let step := update_project_status session raw.project_id
    if step.1.success then (success_res "Task created!", step.2)
    else (error_res "Error creating task.", db)

/-- `TaskManager.delete_task` (TaskManager.py lines 175-218): deletes the
task, flushes, recomputes the owning project's status, and commits both or
rolls both back. -/
def delete_task (db : DB) (task_id : Nat) : Res × DB :=
  if task_id = 0 then (error_res "Task ID not given...", db)
  else
    match findTask db task_id with
    | none => (error_res "Task not found...", db)
    | some task =>
        let session : DB :=
          { db with tasks := db.tasks.eraseP (fun t => t.id = task_id) }
        let step := update_project_status session task.project_id
        if step.1.success then (success_res "Task deleted...", step.2)
        else (error_res "Error deleting task.", db)

/-- `TaskManager.update_task_status` (TaskManager.py lines 298-343):
toggles `is_complete` (`True if not task.is_complete else False`), flushes,
recomputes the owning project's status, and commits both or rolls both
back. -/
def update_task_status (db : DB) (task_id : Nat) : Res × DB :=
  if task_id = 0 then (error_res "Task not given...", db)
  else
    match findTask db task_id with
    | none => (error_res "Task not found...", db)
    | some task =>
        -- `True if not task.is_complete else False` is boolean negation
        let toggled : Bool := !task.is_complete
        let newTasks := db.tasks.map
          (fun t => if t.id = task_id then { t with is_complete := toggled }
                    else t)
        let session : DB := { db with tasks := newTasks }
        let step := update_project_status session task.project_id
        if step.1.success then (success_res "Task updated!", step.2)
        else (error_res "Error updating task status tasks.", db)

/-- Keyword arguments of `ProjectManager.create_project` after type
coercion; missing ids are 0, dates are Int day counts, `status` is already
an enum member (the method normalizes `Status` members to their value). -/
structure ProjectInput where
  name : String
  description : String
  identity_id : Nat
  owner_id : Nat
  start_date : Int
  end_date : Int
  status : Status
deriving DecidableEq, Repr

/-- The `Project` row staged by `create_project` (is_active defaults to
False per the models.py column default); `newId` is the assigned key. -/
def mkProject (newId : Nat) (d : ProjectInput) : Project :=
  { id := newId
    owner_id := d.owner_id
    identity_id := d.identity_id
    name := pyStrip d.name
    is_active := false
    description := pyStrip d.description
    start_date := d.start_date
    end_date := d.end_date
    status := d.status }

/-- `ProjectManager.create_project` (ProjectManager.py lines 52-119):
cleans, validates (note the strict `5 < len(name) < 100` bound), then
persists the new project with the caller-supplied status. -/
def create_project (db : DB) (newId : Nat) (d : ProjectInput) : Res × DB :=
  let name := pyStrip d.name
  let description := pyStrip d.description
  if d.identity_id = 0 then
    (error_res "Orphaned project detected. Not attached to Identity...", db)
  else if d.owner_id = 0 then
    (error_res "Orphaned project detected. Not attached to Profile...", db)
  else if name = "" then (error_res "Invalid project name...", db)
  else if ¬ (5 < name.length ∧ name.length < 100) then
    (error_res "Project name must be between 5 and 100 characters long...", db)
  else if description.length > 500 then
    (error_res "Description too long. Must be less than 500 characters...", db)
  else if d.end_date - d.start_date < 0 then
    (error_res "End date less than start date...", db)
  else
    (success_res "New Project created!",
      { db with projects := db.projects ++ [mkProject newId d] })

/-- Keyword arguments of `ProjectManager.edit_project`: `none` is a field
that was not passed (or passed as None); `some ""` for the string fields is
skipped like None.  Date strings are modelled as already-parsed day counts
(the strptime failure path is not under any claim). -/
structure EditProjectInput where
  name : Option String
  description : Option String
  start_date : Option Int
  end_date : Option Int
deriving DecidableEq, Repr

/-- `ProjectManager.edit_project` (ProjectManager.py lines 150-238): loads
the project, collects only changed and validated fields (inclusive
`5 <= len(name) <= 100` bound), cross-checks the resulting dates, errors
when nothing is staged, else applies and commits. -/
def edit_project (db : DB) (project_id : Nat) (d : EditProjectInput) :
    Res × DB :=
  if project_id = 0 then (error_res "Project ID not given...", db)
  else
    match findProject db project_id with
    | none => (error_res "Project not found...", db)
    | some project =>
        let nameStep : Except Res (Option String) :=
          match d.name with
          | none => Except.ok none
          | some v =>
              if v = "" then Except.ok none
              else
                let name := pyStrip v
                if name = project.name then Except.ok none
                else if ¬ (5 ≤ name.length ∧ name.length ≤ 100) then
                  Except.error (error_res
                    "Invalid project name. Must be between 5 and 100 characters")
                else Except.ok (some name)
        match nameStep with
        | Except.error r => (r, db)
        | Except.ok nameUpd =>
            let descUpd : Option String :=
              match d.description with
              | none => none
              | some v =>
                  if v = "" then none
                  else if pyStrip v = project.description then none
                  else some v
            let startUpd : Option Int := d.start_date
            let endUpd : Option Int := d.end_date
            let start_date := startUpd.getD project.start_date
            let end_date := endUpd.getD project.end_date
            if end_date < start_date then
              (error_res "End date is before start date...", db)
            else if nameUpd.isNone ∧ descUpd.isNone ∧ startUpd.isNone ∧
                endUpd.isNone then
              (error_res "No valid data to update...", db)
            else
              let updated : Project :=
                { project with
                  name := nameUpd.getD project.name
                  description := descUpd.getD project.description
                  start_date := start_date
                  end_date := end_date }
              let newProjects := db.projects.map
                (fun p => if p.id = project_id then updated else p)
              (success_res "Project updated!",
                { db with projects := newProjects })

/-- The `Project.time_left` property (models.py lines 282-297): days
remaining until end_date, 0 when completed or already past due.  (A
project's end_date column is non-nullable, so the `not self.end_date`
guard never fires and is folded away.) -/
def time_left (p : Project) (today : Int) : Int :=
  if p.status = Status.completed then 0
  else if p.end_date < today then 0
  else p.end_date - today

/-- `ProjectManager.deactivate_projects` (ProjectManager.py lines 330-362):
commits `is_active = False` on every project of the identity; a no-op
success when the identity has no projects; error on a falsy identity. -/
def deactivate_projects (db : DB) (identity_id : Nat) : Res × DB :=
  if identity_id = 0 then (error_res "Identity not given...", db)
  else if projectsOf db identity_id = [] then
    (success_res "Projects deactivated!", db)
  else
    let newProjects := db.projects.map
      (fun p => if p.identity_id = identity_id then { p with is_active := false }
                else p)
    (success_res "Projects deactivated!", { db with projects := newProjects })

/-- Head of Python's stable `sorted(projects, key=time_left)`: the first
element of `p :: ps` attaining the minimal `time_left` value (strict
comparison keeps the earlier element on ties, exactly as a stable sort
does). -/
def firstMinByTimeLeft (today : Int) (p : Project) (ps : List Project) :
    Project :=
  ps.foldl
    (fun best q => if time_left q today < time_left best today then q else best)
    p

/-- Commit `is_active = True` on every projects-table row with id `pid`
(the staged `project.is_active = True; session.add(project)` effect). -/
def activateProject (db : DB) (pid : Nat) : DB :=
  let newProjects := db.projects.map
    (fun p => if p.id = pid then { p with is_active := true } else p)
  { db with projects := newProjects }

/-- `ProjectManager.set_default_project` (ProjectManager.py lines 364-398):
sorts the identity's projects by `time_left`, activates the first and
commits, returning it in the payload; fails when there are no projects. -/
def set_default_project (db : DB) (today : Int) (identity_id : Nat) :
    Res × Option Project × DB :=
  if identity_id = 0 then (error_res "Identity not given...", none, db)
  else
    match projectsOf db identity_id with
    | [] => (error_res "No projects found...", none, db)
    | p :: ps =>
        let default_project := firstMinByTimeLeft today p ps
        (success_res "Default project set",
          some { default_project with is_active := true },
          activateProject db default_project.id)

/-- `ProjectManager.get_active_project` (ProjectManager.py lines 400-440):
returns the active project; success with a null payload when the identity
has no projects; falls back to `set_default_project` when none is active. -/
def get_active_project (db : DB) (today : Int) (identity_id : Nat) :
    Res × Option Project × DB :=
  if identity_id = 0 then (error_res "Identity not given...", none, db)
  else
    match projectsOf db identity_id with
    | [] => (success_res "No projects found!", none, db)
    | _ :: _ =>
        match (projectsOf db identity_id).filter (fun p => p.is_active) with
        | [] =>
            let step := set_default_project db today identity_id
            if step.1.success then
              (success_res "Project found!", step.2.1, step.2.2)
            else (error_res "Failed to get active project...", none, step.2.2)
        | a :: _ => (success_res "Project found!", some a, db)

/-- `ProjectManager.set_active_project` (ProjectManager.py lines 442-477):
deactivates every project of the identity (a committing call), then looks
up the target project by id — returning not-found only after that commit —
and finally activates and commits the target. -/
def set_active_project (db : DB) (identity_id : Nat) (project_id : Nat) :
    Res × Option Project × DB :=
  if project_id = 0 then (error_res "Project not given...", none, db)
  else
    let deactivated := deactivate_projects db identity_id
    if ¬ deactivated.1.success then
      (error_res "Error setting active project....", none, deactivated.2)
    else
      match findProject deactivated.2 project_id with
      | none => (error_res "Project not found...", none, deactivated.2)
      | some project =>
          (success_res "Default project set",
            some { project with is_active := true },
            activateProject deactivated.2 project_id)

/-! ProfileIdentityManager.  The state for the identity claims is the
`profile_identities` table in insertion order; the Profile argument of the
Python methods is modelled by the profile's id (0 for a falsy/None
profile), and `profile.identities` is the table filtered on that id. -/

/-- The relationship collection `profile.identities` for profile `pid`. -/
def identitiesOf (s : List ProfileIdentity) (pid : Nat) :
    List ProfileIdentity :=
  s.filter (fun i => i.profile_id = pid)

/-- `ProfileIdentityManager.get_active_identity` (ProfileIdentityManager.py
lines 182-205): filters the profile's identities for `is_active` in memory
and returns the first, erroring when none is active.  Read-only. -/
def get_active_identity (s : List ProfileIdentity) (profile : Nat) :
    Res × Option ProfileIdentity :=
  if profile = 0 then (error_res "Missing profile...", none)
  else
    match (identitiesOf s profile).filter (fun i => i.is_active) with
    | [] => (error_res "Active identity not found...", none)
    | a :: _ => (success_res "Identity found...", some a)

/-- `ProfileIdentityManager.deactivate_identities` (ProfileIdentityManager.py
lines 207-233): commits `is_active = False` on every identity of the
profile in one transaction. -/
def deactivate_identities (s : List ProfileIdentity) (profile : Nat) :
    Res × List ProfileIdentity :=
  if profile = 0 then (error_res "Profile not given.", s)
  else
    (success_res "Identities deactivated.",
      s.map (fun i => if i.profile_id = profile then { i with is_active := false }
                      else i))

/-- `ProfileIdentityManager.set_identity` (ProfileIdentityManager.py lines
235-274): looks the target identity up by primary key over the whole
table, then deactivates all of the profile's identities (first commit) and
activates the target (second commit). -/
def set_identity (s : List ProfileIdentity) (profile : Nat)
    (identity_id : Nat) : Res × Option ProfileIdentity × List ProfileIdentity :=
  match s.find? (fun i => i.id = identity_id) with
  | none => (error_res "Identity not found.", none, s)
  | some identity =>
      let deactivated := deactivate_identities s profile
      if ¬ deactivated.1.success then
        (error_res deactivated.1.msg, none, deactivated.2)
      else
        (success_res "Identity set",
          some { identity with is_active := true },
          deactivated.2.map
            (fun i => if i.id = identity_id then { i with is_active := true }
                      else i))

/-- `ProfileIdentityManager.swap_active_identites` (ProfileIdentityManager.py
lines 142-180).  The guard `if not (current and new)` errors whenever
either argument is None, which makes the later `if not current:`
resolution block (lines 157-161) unreachable; the live path deactivates
`current`, activates `new` and commits both together. -/
def swap_active_identites (s : List ProfileIdentity) (_profile : Nat)
    (current : Option Nat) (new : Option Nat) :
    Res × List ProfileIdentity :=
  match current, new with
  | some c, some n =>
      let s1 := s.map
        (fun i => if i.id = c then { i with is_active := false } else i)
      let s2 := s1.map
        (fun i => if i.id = n then { i with is_active := true } else i)
      (success_res "Active identities set...", s2)
  | _, _ => (error_res "Identities not given...", s)

/-- `ProfileIdentityManager.set_default_identity` (ProfileIdentityManager.py
lines 276-310): returns the already-active identity unchanged when one
exists; otherwise activates the first identity in the profile's collection
and commits; errors when the profile has no identities. -/
def set_default_identity (s : List ProfileIdentity) (profile : Nat) :
    Res × Option ProfileIdentity × List ProfileIdentity :=
  if profile = 0 then (error_res "Missing profile...", none, s)
  else
    let active_attempt := get_active_identity s profile
    if active_attempt.1.success then
      (success_res "Identity already set...", active_attempt.2, s)
    else
      match identitiesOf s profile with
      | [] => (error_res "Profile has no identities to set as default.",
                none, s)
      | default :: _ =>
          (success_res "Default identity set...",
            some { default with is_active := true },
            s.map (fun i => if i.id = default.id then { i with is_active := true }
                            else i))

/-- `ProfileIdentityManager.initialise_profile_identities`
(ProfileIdentityManager.py lines 95-140): reads the full template catalog
(via `IdentityTemplateManager.get_all`, whose `read_items` reports
not-found on an empty catalog), builds one inactive identity per template
with `custom_name` defaulted to the template's name, marks the first one
active, and returns the list *without* committing (uncommitted rows have
no primary key yet; modelled as id 0). -/
def initialise_profile_identities (templates : List IdentityTemplate)
    (profile_id : Nat) : Res × List ProfileIdentity :=
  if templates = [] then (error_res "Identity_Templates not found", [])
  else
    let identities_to_add := templates.map
      (fun t => { id := 0
                  profile_id := profile_id
                  template_id := t.id
                  is_active := false
                  custom_name := t.name : ProfileIdentity })
    match identities_to_add with
    | [] => (success_res "Identities successfully created...", [])
    | first :: rest =>
        (success_res "Identities successfully created...",
          { first with is_active := true } :: rest)

/-! Spec-side predicates (phrased from the specification's wording) and
the call-sequence machinery for the active-identity invariant claim. -/

/-- The spec's project-status rule, as stated: for the project(s) with id
`pid`, status is not_started iff the task count is 0; completed iff the
task count is ≥ 1 and all tasks are complete; in_progress iff the task
count is ≥ 1 and not all tasks are complete. -/
def statusMatchesTasks (db : DB) (pid : Nat) : Prop :=
  ∀ p ∈ db.projects, p.id = pid →
    ((p.status = Status.not_started ↔ (tasksOf db pid).length = 0) ∧
     (p.status = Status.completed ↔
       (1 ≤ (tasksOf db pid).length ∧
        ∀ t ∈ tasksOf db pid, t.is_complete = true)) ∧
     (p.status = Status.in_progress ↔
       (1 ≤ (tasksOf db pid).length ∧
        ¬ ∀ t ∈ tasksOf db pid, t.is_complete = true)))

/-- At most one of profile `pid`'s identities has `is_active = true`: any
two active ones carry the same primary key. -/
def atMostOneActive (s : List ProfileIdentity) (pid : Nat) : Prop :=
  ∀ x ∈ identitiesOf s pid, ∀ y ∈ identitiesOf s pid,
    x.is_active = true → y.is_active = true → x.id = y.id

/-- Primary keys of the profile_identities table are unique. -/
def nodupIds (s : List ProfileIdentity) : Prop :=
  (s.map (fun i => i.id)).Nodup

instance (db : DB) (pid : Nat) : Decidable (statusMatchesTasks db pid) := by
  unfold statusMatchesTasks
  exact inferInstance

instance (s : List ProfileIdentity) (pid : Nat) :
    Decidable (atMostOneActive s pid) := by
  unfold atMostOneActive
  exact inferInstance

instance (s : List ProfileIdentity) : Decidable (nodupIds s) := by
  unfold nodupIds
  exact inferInstance

/-- One call of the three active-identity mutators, with its arguments
(the profile each call is made for, and the identity arguments). -/
inductive IdOp
  | set (profile : Nat) (identity_id : Nat)
  | swapA (profile : Nat) (current : Option Nat) (new : Option Nat)
  | setDefault (profile : Nat)
deriving DecidableEq, Repr

/-- The state transition of one call (dropping the response). -/
def applyIdOp (s : List ProfileIdentity) : IdOp → List ProfileIdentity
  | IdOp.set p i => (set_identity s p i).2.2
  | IdOp.swapA p c n => (swap_active_identites s p c n).2
  | IdOp.setDefault p => (set_default_identity s p).2.2

/-- Well-formed use of one call, in the sense the routes use them: a
`set_identity` call targets an identity belonging to its profile; a
`swap_active_identities` call passes both arguments, both belonging to its
profile, with `current` covering every currently active identity of that
profile; `set_default_identity` is unrestricted. -/
def wfIdOp (s : List ProfileIdentity) : IdOp → Bool
  | IdOp.set p i => (identitiesOf s p).any (fun x => x.id = i)
  | IdOp.swapA p c n =>
      match c, n with
      | some ci, some ni =>
          (identitiesOf s p).any (fun x => x.id = ci) &&
          (identitiesOf s p).any (fun x => x.id = ni) &&
          (identitiesOf s p).all (fun x => !x.is_active || x.id = ci)
      | _, _ => false
  | IdOp.setDefault _ => true

/-- Sequential application of a call sequence. -/
def applyIdOps (s : List ProfileIdentity) : List IdOp → List ProfileIdentity
  | [] => s
  | op :: ops => applyIdOps (applyIdOp s op) ops

/-- Every call of the sequence is well-formed in the state it runs in. -/
def wfIdOps (s : List ProfileIdentity) : List IdOp → Bool
  | [] => true
  | op :: ops => wfIdOp s op && wfIdOps (applyIdOp s op) ops

/-! Helper lemmas. -/

/-- Mapping a profile-preserving function commutes with taking a profile's
identity collection. -/
theorem identitiesOf_map (s : List ProfileIdentity)
    (f : ProfileIdentity → ProfileIdentity) (pid : Nat)
    (hf : ∀ i, (f i).profile_id = i.profile_id) :
    identitiesOf (s.map f) pid = (identitiesOf s pid).map f := by
  induction s with
  | nil => rfl
  | cons a as ih =>
      unfold identitiesOf at *
      by_cases h : a.profile_id = pid
      · simp [h, hf, ih]
      · simp [h, hf, ih]

/-- Mapping an id-preserving function leaves the table's key column
unchanged. -/
theorem ids_map (s : List ProfileIdentity)
    (f : ProfileIdentity → ProfileIdentity)
    (hf : ∀ i, (f i).id = i.id) :
    (s.map f).map (fun i => i.id) = s.map (fun i => i.id) := by
  rw [List.map_map]
  exact List.map_congr_left (fun a _ => hf a)

/-- With unique primary keys, two table rows with the same id are the same
row. -/
theorem eq_of_id_eq (s : List ProfileIdentity) (hnd : nodupIds s) :
    ∀ x ∈ s, ∀ y ∈ s, x.id = y.id → x = y := by
  intro x hx y hy hxy
  exact List.inj_on_of_nodup_map hnd hx hy hxy

/-! Claim C5. -/

/-- C5: the claim (and the spec) say that `swap_active_identities` with
`current` omitted resolves the profile's currently active identity,
deactivates it, activates `new`, and commits both in one transaction.  The
code's opening guard `if not (current and new)` rejects an omitted
`current` outright, so the call returns the "Identities not given..."
error and leaves the store untouched; the in-body resolution branch
(`if not current:`) is unreachable.  This theorem evaluates the embedded
code on every input of the failing shape. -/
theorem swap_omitted_current_errors (s : List ProfileIdentity)
    (profile : Nat) (n : Nat) :
    swap_active_identites s profile none (some n) =
      (error_res "Identities not given...", s) := rfl

/-! Claim C7. -/

/-- C7: `set_default_identity` is idempotent: when the profile already has
an active identity the call succeeds, returns exactly the identity
`get_active_identity` finds, performs no write, and a second call returns
the very same response and state. -/
theorem set_default_identity_idempotent (s : List ProfileIdentity)
    (profile : Nat) (hp : profile ≠ 0)
    (hactive : (get_active_identity s profile).1.success = true) :
    (set_default_identity s profile).1.success = true ∧
    (set_default_identity s profile).2.1 = (get_active_identity s profile).2 ∧
    (set_default_identity s profile).2.2 = s ∧
    set_default_identity (set_default_identity s profile).2.2 profile =
      set_default_identity s profile := by
  have h1 : set_default_identity s profile =
      (success_res "Identity already set...",
        (get_active_identity s profile).2, s) := by
    unfold set_default_identity
    simp [hp, hactive]
  simp [h1, success_res]

/-- Witness for C7 on a concrete store: profile 1 has identity 1 active. -/
def sampleIdentities : List ProfileIdentity :=
  [{ id := 1, profile_id := 1, template_id := 1, is_active := true,
     custom_name := "The Learner" },
   { id := 2, profile_id := 1, template_id := 2, is_active := false,
     custom_name := "The Builder" },
   { id := 3, profile_id := 1, template_id := 3, is_active := false,
     custom_name := "The Explorer" }]

theorem set_default_identity_idempotent_witness :
    (1 : Nat) ≠ 0 ∧
    (get_active_identity sampleIdentities 1).1.success = true ∧
    ((set_default_identity sampleIdentities 1).1.success = true ∧
     (set_default_identity sampleIdentities 1).2.1 =
       (get_active_identity sampleIdentities 1).2 ∧
     (set_default_identity sampleIdentities 1).2.2 = sampleIdentities ∧
     set_default_identity (set_default_identity sampleIdentities 1).2.2 1 =
       set_default_identity sampleIdentities 1) :=
  ⟨by decide, by decide,
    set_default_identity_idempotent sampleIdentities 1 (by decide) (by decide)⟩

/-! Claim C8. -/

/-- C8: for a (non-empty) catalog of n identity templates,
`initialise_profile_identities(profile_id)` succeeds and returns, without
committing (the function touches no store state), a list of exactly n new
identities — one per template in catalog order, each carrying the profile
id, its template's id and the template's name as default custom_name —
with exactly the first list element having `is_active = true`. -/
theorem initialise_profile_identities_spec
    (templates : List IdentityTemplate) (profile_id : Nat)
    (ht : templates ≠ []) :
    (initialise_profile_identities templates profile_id).1.success = true ∧
    (initialise_profile_identities templates profile_id).2.length =
      templates.length ∧
    (∀ i x,
      (initialise_profile_identities templates profile_id).2[i]? = some x →
        x.is_active = decide (i = 0) ∧ x.profile_id = profile_id ∧
        ∀ t, templates[i]? = some t →
          x.custom_name = t.name ∧ x.template_id = t.id) := by
  match templates with
  | [] => exact absurd rfl ht
  | t :: ts =>
      have hres : initialise_profile_identities (t :: ts) profile_id =
          (success_res "Identities successfully created...",
            (⟨0, profile_id, t.id, true, t.name⟩ : ProfileIdentity) ::
            ts.map (fun u => (⟨0, profile_id, u.id, false, u.name⟩ :
              ProfileIdentity))) := by
        unfold initialise_profile_identities
        simp
      refine ⟨by rw [hres]; rfl, by rw [hres]; simp, ?_⟩
      intro i x hx
      rw [hres] at hx
      match i with
      | 0 =>
          simp only [List.getElem?_cons_zero, Option.some.injEq] at hx
          subst hx
          refine ⟨by simp, rfl, ?_⟩
          intro u hu
          simp only [List.getElem?_cons_zero, Option.some.injEq] at hu
          subst hu
          exact ⟨rfl, rfl⟩
      | i + 1 =>
          simp only [List.getElem?_cons_succ, List.getElem?_map] at hx
          match hts : ts[i]? with
          | none => simp [hts] at hx
          | some u =>
              simp only [hts, Option.map_some', Option.some.injEq] at hx
              subst hx
              refine ⟨by simp, rfl, ?_⟩
              intro v hv
              simp only [List.getElem?_cons_succ, hts,
                Option.some.injEq] at hv
              subst hv
              exact ⟨rfl, rfl⟩

/-- Witness for C8 on a concrete 3-template catalog. -/
def sampleTemplates : List IdentityTemplate :=
  [{ id := 1, name := "The Learner" },
   { id := 2, name := "The Builder" },
   { id := 3, name := "The Explorer" }]

theorem initialise_profile_identities_spec_witness :
    sampleTemplates ≠ [] ∧
    ((initialise_profile_identities sampleTemplates 7).1.success = true ∧
     (initialise_profile_identities sampleTemplates 7).2.length =
       sampleTemplates.length ∧
     (∀ i x,
       (initialise_profile_identities sampleTemplates 7).2[i]? = some x →
         x.is_active = decide (i = 0) ∧ x.profile_id = 7 ∧
         ∀ t, sampleTemplates[i]? = some t →
           x.custom_name = t.name ∧ x.template_id = t.id)) :=
  ⟨by decide, initialise_profile_identities_spec sampleTemplates 7 (by decide)⟩

/-! Claim C9. -/

/-- C9: calling `set_active_project` with a non-zero project id that does
not resolve to an existing project returns the not-found error only after
`deactivate_projects` has already committed `is_active = false` on every
project of the identity: the returned (committed) state is exactly the
deactivated one, and in it the identity has zero active projects. -/
theorem set_active_project_notfound_mutates (db : DB)
    (identity_id project_id : Nat) (hi : identity_id ≠ 0)
    (hp : project_id ≠ 0) (hnf : findProject db project_id = none) :
    (set_active_project db identity_id project_id).1 =
      error_res "Project not found..." ∧
    (set_active_project db identity_id project_id).2.2 =
      (deactivate_projects db identity_id).2 ∧
    ∀ q ∈ projectsOf (set_active_project db identity_id project_id).2.2
        identity_id, q.is_active = false := by
  have hd : (deactivate_projects db identity_id).1.success = true := by
    unfold deactivate_projects
    rw [if_neg hi]
    by_cases h : projectsOf db identity_id = []
    · rw [if_pos h]
      rfl
    · rw [if_neg h]
      rfl
  have hnf2 : findProject (deactivate_projects db identity_id).2 project_id
      = none := by
    unfold deactivate_projects
    rw [if_neg hi]
    by_cases h : projectsOf db identity_id = []
    · rw [if_pos h]
      exact hnf
    · rw [if_neg h]
      unfold findProject at hnf ⊢
      rw [List.find?_eq_none] at hnf ⊢
      intro x hx
      rw [List.mem_map] at hx
      obtain ⟨y, hy, hxy⟩ := hx
      have hyid := hnf y hy
      subst hxy
      by_cases hcase : y.identity_id = identity_id <;>
        simpa [hcase] using hyid
  have hmain : set_active_project db identity_id project_id =
      (error_res "Project not found...", none,
        (deactivate_projects db identity_id).2) := by
    unfold set_active_project
    rw [if_neg hp]
    simp only [hd, hnf2]
    simp
  refine ⟨by rw [hmain], by rw [hmain], ?_⟩
  rw [hmain]
  intro q hq
  unfold deactivate_projects at hq
  rw [if_neg hi] at hq
  by_cases h : projectsOf db identity_id = []
  · rw [if_pos h] at hq
    rw [h] at hq
    simp at hq
  · rw [if_neg h] at hq
    unfold projectsOf at hq
    simp only [List.mem_filter, List.mem_map, decide_eq_true_eq] at hq
    obtain ⟨⟨y, hy, hyq⟩, hqid⟩ := hq
    subst hyq
    by_cases hcase : y.identity_id = identity_id
    · simp [hcase]
    · simp only [if_neg hcase] at hqid ⊢
      exact absurd hqid hcase

/-- Witness for C9 on a concrete store: identity 2 has one active project
(id 5); project id 99 does not exist. -/
def sampleDB : DB :=
  { projects :=
      [⟨5, 1, 2, "Sample project", true, "", 0, 10, Status.not_started⟩],
    tasks := [] }

theorem set_active_project_notfound_mutates_witness :
    (2 : Nat) ≠ 0 ∧ (99 : Nat) ≠ 0 ∧ findProject sampleDB 99 = none ∧
    ((set_active_project sampleDB 2 99).1 =
       error_res "Project not found..." ∧
     (set_active_project sampleDB 2 99).2.2 =
       (deactivate_projects sampleDB 2).2 ∧
     ∀ q ∈ projectsOf (set_active_project sampleDB 2 99).2.2 2,
       q.is_active = false) :=
  ⟨by decide, by decide, by decide,
    set_active_project_notfound_mutates sampleDB 2 99 (by decide) (by decide)
      (by decide)⟩

/-! Claim C10 (and a shared helper for C4). -/

/-- When every validation passes, `create_project` appends the new row and
reports success. -/
theorem create_project_eq_of_valid (db : DB) (newId : Nat) (d : ProjectInput)
    (hid : d.identity_id ≠ 0) (howner : d.owner_id ≠ 0)
    (hlen1 : 5 < (pyStrip d.name).length)
    (hlen2 : (pyStrip d.name).length < 100)
    (hdesc : (pyStrip d.description).length ≤ 500)
    (hdates : d.start_date ≤ d.end_date) :
    create_project db newId d =
      (success_res "New Project created!",
        { db with projects := db.projects ++ [mkProject newId d] }) := by
  have hne : ¬ (pyStrip d.name = "") := by
    intro h
    rw [h] at hlen1
    simp [String.length] at hlen1
  have hlen : ¬ ¬ (5 < (pyStrip d.name).length ∧
      (pyStrip d.name).length < 100) := by
    exact not_not_intro ⟨hlen1, hlen2⟩
  have hdesc2 : ¬ ((pyStrip d.description).length > 500) := by omega
  have hdates2 : ¬ (d.end_date - d.start_date < 0) := by omega
  unfold create_project
  rw [if_neg hid, if_neg howner, if_neg hne, if_neg hlen, if_neg hdesc2,
    if_neg hdates2]

/-- C10: `create_project` persists the caller-supplied status without
recomputing it from the (empty) task set: for any otherwise-valid input
whose status is not not_started, the call succeeds, the stored row keeps
that status while owning zero tasks, and the derived-status rule is
violated in the resulting store. -/
theorem create_project_persists_caller_status (db : DB) (newId : Nat)
    (d : ProjectInput)
    (hid : d.identity_id ≠ 0) (howner : d.owner_id ≠ 0)
    (hlen1 : 5 < (pyStrip d.name).length)
    (hlen2 : (pyStrip d.name).length < 100)
    (hdesc : (pyStrip d.description).length ≤ 500)
    (hdates : d.start_date ≤ d.end_date)
    (hfresh : ∀ t ∈ db.tasks, t.project_id ≠ newId)
    (hstatus : d.status ≠ Status.not_started) :
    (create_project db newId d).1.success = true ∧
    (∃ p ∈ (create_project db newId d).2.projects,
      p.id = newId ∧ p.status = d.status) ∧
    tasksOf (create_project db newId d).2 newId = [] ∧
    ¬ statusMatchesTasks (create_project db newId d).2 newId := by
  have h := create_project_eq_of_valid db newId d hid howner hlen1 hlen2
    hdesc hdates
  rw [h]
  have htasks : tasksOf { db with
      projects := db.projects ++ [mkProject newId d] } newId = [] := by
    unfold tasksOf
    simp only []
    rw [List.filter_eq_nil_iff]
    intro t ht
    simpa using hfresh t ht
  refine ⟨rfl, ⟨mkProject newId d, by simp, rfl, rfl⟩, htasks, ?_⟩
  intro hinv
  have hmem : mkProject newId d ∈ db.projects ++ [mkProject newId d] := by
    simp
  have h2 := (hinv (mkProject newId d) hmem rfl).1
  rw [htasks] at h2
  simp only [List.length_nil] at h2
  have h3 : (mkProject newId d).status = Status.not_started := h2.mpr trivial
  exact hstatus h3

/-- Witness for C10: a valid creation request carrying status completed. -/
def sampleProjectInput : ProjectInput :=
  { name := "Read the docs", description := "", identity_id := 2,
    owner_id := 1, start_date := 0, end_date := 30,
    status := Status.completed }

theorem create_project_persists_caller_status_witness :
    sampleProjectInput.identity_id ≠ 0 ∧
    sampleProjectInput.owner_id ≠ 0 ∧
    5 < (pyStrip sampleProjectInput.name).length ∧
    (pyStrip sampleProjectInput.name).length < 100 ∧
    (pyStrip sampleProjectInput.description).length ≤ 500 ∧
    sampleProjectInput.start_date ≤ sampleProjectInput.end_date ∧
    (∀ t ∈ sampleDB.tasks, t.project_id ≠ 9) ∧
    sampleProjectInput.status ≠ Status.not_started ∧
    ((create_project sampleDB 9 sampleProjectInput).1.success = true ∧
     (∃ p ∈ (create_project sampleDB 9 sampleProjectInput).2.projects,
       p.id = 9 ∧ p.status = sampleProjectInput.status) ∧
     tasksOf (create_project sampleDB 9 sampleProjectInput).2 9 = [] ∧
     ¬ statusMatchesTasks (create_project sampleDB 9 sampleProjectInput).2 9) :=
  ⟨by decide, by decide, by decide, by decide, by decide, by decide,
    by decide, by decide,
    create_project_persists_caller_status sampleDB 9 sampleProjectInput
      (by decide) (by decide) (by decide) (by decide) (by decide) (by decide)
      (by decide) (by decide)⟩

/-! Claim C4. -/

/-- C4 counterexample: the claim says `create_project` accepts a trimmed
name of length 5 when every other input is valid; on the concrete input
below (name "abcde", valid ids, dates and description) the call is
rejected, because `create_project` checks the strict bound
`5 < len(name) < 100`. -/
theorem create_project_length5_rejected_counterexample :
    (create_project { projects := [], tasks := [] } 1
      ⟨"abcde", "", 1, 1, 0, 30, Status.not_started⟩).1.success = false := by
  decide

/-- C4 amended: `create_project` rejects every trimmed name of length 4,
5, 100 or 101 and accepts any length strictly between 5 and 100 (other
inputs being valid), while `edit_project` rejects lengths 4 and 101 and
accepts lengths 5 and 100 (for a name-only edit of an existing project
with consistent dates and an actually-changed name). -/
theorem project_name_length_validation :
    (∀ (db : DB) (newId : Nat) (d : ProjectInput),
      ((pyStrip d.name).length = 4 ∨ (pyStrip d.name).length = 5 ∨
       (pyStrip d.name).length = 100 ∨ (pyStrip d.name).length = 101) →
      (create_project db newId d).1.success = false) ∧
    (∀ (db : DB) (newId : Nat) (d : ProjectInput),
      d.identity_id ≠ 0 → d.owner_id ≠ 0 →
      (pyStrip d.description).length ≤ 500 →
      d.start_date ≤ d.end_date →
      5 < (pyStrip d.name).length → (pyStrip d.name).length < 100 →
      (create_project db newId d).1.success = true) ∧
    (∀ (db : DB) (project_id : Nat) (v : String),
      ((pyStrip v).length = 4 ∨ (pyStrip v).length = 101) →
      (edit_project db project_id ⟨some v, none, none, none⟩).1.success =
        false) ∧
    (∀ (db : DB) (project_id : Nat) (v : String) (project : Project),
      project_id ≠ 0 → findProject db project_id = some project →
      project.start_date ≤ project.end_date →
      pyStrip v ≠ project.name →
      ((pyStrip v).length = 5 ∨ (pyStrip v).length = 100) →
      (edit_project db project_id ⟨some v, none, none, none⟩).1.success =
        true) := by
  refine ⟨?_, ?_, ?_, ?_⟩
  · intro db newId d hlen
    simp only [create_project]
    repeat' split
    all_goals first | rfl | (exfalso; omega)
  · intro db newId d hid howner hdesc hdates hlen1 hlen2
    rw [create_project_eq_of_valid db newId d hid howner hlen1 hlen2
      hdesc hdates]
    rfl
  · intro db project_id v hlen
    by_cases hpid : project_id = 0
    · simp [edit_project, hpid, error_res]
    · cases hfp : findProject db project_id with
      | none => simp [edit_project, hpid, hfp, error_res]
      | some project =>
          by_cases hv : v = ""
          · simp only [edit_project, hpid, hfp, hv, if_neg, if_pos,
              if_true, if_false, ite_true, ite_false]
            simp [error_res]
            by_cases hd : project.end_date < project.start_date <;>
              simp [hd, error_res]
          · by_cases hname : pyStrip v = project.name
            · simp only [edit_project, hpid, hfp]
              simp [hv, hname, error_res]
              by_cases hd : project.end_date < project.start_date <;>
                simp [hd, error_res]
            · have hbound : ¬ (5 ≤ (pyStrip v).length ∧
                  (pyStrip v).length ≤ 100) := by omega
              simp only [edit_project, hpid, hfp]
              simp [hv, hname, hbound, error_res]
  · intro db project_id v project hpid hfp hdates hname hlen
    have hv : v ≠ "" := by
      intro h
      rw [h] at hlen
      revert hlen
      decide
    have hbound : 5 ≤ (pyStrip v).length ∧ (pyStrip v).length ≤ 100 := by
      omega
    have hd : ¬ (project.end_date < project.start_date) := not_lt.mpr hdates
    simp only [edit_project, hpid, hfp]
    simp [hv, hname, hbound, hd, success_res, error_res]

/-- Witness for C4's amended statement at concrete inputs: length 4 and
length 5 names for `create_project` (rejected and, at length 6,
accepted), and length 4 and length 5 names for `edit_project` on the
sample store. -/
theorem project_name_length_validation_witness :
    ((pyStrip "abcd").length = 4 ∧
     (create_project sampleDB 9
       ⟨"abcd", "", 1, 1, 0, 30, Status.not_started⟩).1.success = false) ∧
    ((create_project sampleDB 9
       ⟨"abcdef", "", 1, 1, 0, 30, Status.not_started⟩).1.success = true) ∧
    ((pyStrip "abcd").length = 4 ∧
     (edit_project sampleDB 5 ⟨some "abcd", none, none, none⟩).1.success =
       false) ∧
    ((pyStrip "abcde").length = 5 ∧
     (edit_project sampleDB 5 ⟨some "abcde", none, none, none⟩).1.success =
       true) :=
  ⟨⟨by decide,
      project_name_length_validation.1 sampleDB 9
        ⟨"abcd", "", 1, 1, 0, 30, Status.not_started⟩ (by decide)⟩,
    project_name_length_validation.2.1 sampleDB 9
      ⟨"abcdef", "", 1, 1, 0, 30, Status.not_started⟩ (by decide) (by decide)
      (by decide) (by decide) (by decide) (by decide),
    ⟨by decide,
      project_name_length_validation.2.2.1 sampleDB 5 "abcd" (by decide)⟩,
    ⟨by decide,
      project_name_length_validation.2.2.2 sampleDB 5 "abcde"
        ⟨5, 1, 2, "Sample project", true, "", 0, 10, Status.not_started⟩
        (by decide) (by decide) (by decide) (by decide) (by decide)⟩⟩

/-! Claim C1 (and helpers shared with C3). -/

/-- The recomputation rule satisfies the spec's three-way
characterization. -/
theorem derivedStatus_spec (tasks : List Task) :
    (derivedStatus tasks = Status.not_started ↔ tasks.length = 0) ∧
    (derivedStatus tasks = Status.completed ↔
      (1 ≤ tasks.length ∧ ∀ t ∈ tasks, t.is_complete = true)) ∧
    (derivedStatus tasks = Status.in_progress ↔
      (1 ≤ tasks.length ∧ ¬ ∀ t ∈ tasks, t.is_complete = true)) := by
  unfold derivedStatus
  by_cases h0 : tasks.length = 0
  · rw [if_pos h0]
    exact ⟨by simp [h0], by simp [h0], by simp [h0]⟩
  · rw [if_neg h0]
    by_cases hall : tasks.all (fun t => t.is_complete) = true
    · rw [if_pos hall]
      rw [List.all_eq_true] at hall
      refine ⟨by simp [h0], ?_, ?_⟩
      · simp only [true_iff]
        exact ⟨by omega, hall⟩
      · constructor
        · intro hx
          simp at hx
        · intro hx
          exact absurd hall hx.2
    · rw [if_neg hall]
      have hnall : ¬ ∀ t ∈ tasks, t.is_complete = true := by
        rw [← List.all_eq_true]
        exact hall
      refine ⟨by simp [h0], by simp [hnall], ?_⟩
      simp only [true_iff]
      exact ⟨by omega, hnall⟩

/-- Staging the recomputed status makes the spec relation hold for that
project id (task table untouched). -/
theorem statusMatchesTasks_setProjectStatus (db : DB) (pid : Nat) :
    statusMatchesTasks
      (setProjectStatus db pid (derivedStatus (tasksOf db pid))) pid := by
  intro p hp hpid
  have htasks : tasksOf
      (setProjectStatus db pid (derivedStatus (tasksOf db pid))) pid =
      tasksOf db pid := rfl
  rw [htasks]
  have hstat : p.status = derivedStatus (tasksOf db pid) := by
    simp only [setProjectStatus, List.mem_map] at hp
    obtain ⟨q, hq, hpq⟩ := hp
    by_cases hqid : q.id = pid
    · rw [← hpq]
      simp [hqid]
    · rw [← hpq] at hpid
      simp only [if_neg hqid] at hpid
      exact absurd hpid hqid
  rw [hstat]
  exact derivedStatus_spec (tasksOf db pid)

/-- A successful `update_project_status` stages exactly the recomputed
status. -/
theorem update_project_status_success (db : DB) (pid : Nat)
    (h : (update_project_status db pid).1.success = true) :
    (update_project_status db pid).2 =
      setProjectStatus db pid (derivedStatus (tasksOf db pid)) := by
  unfold update_project_status at h ⊢
  by_cases hpid : pid = 0
  · rw [if_pos hpid] at h
    simp [error_res] at h
  · rw [if_neg hpid] at h ⊢
    cases hfp : findProject db pid with
    | none =>
        rw [hfp] at h
        simp [error_res] at h
    | some q => rfl

/-- `update_project_status` never changes the tasks table. -/
theorem update_project_status_tasks (db : DB) (pid : Nat) :
    (update_project_status db pid).2.tasks = db.tasks := by
  unfold update_project_status
  by_cases hpid : pid = 0
  · rw [if_pos hpid]
  · rw [if_neg hpid]
    cases hfp : findProject db pid with
    | none => rfl
    | some q => rfl

/-- After a successful `update_project_status`, the spec's status relation
holds at the recomputed project. -/
theorem update_project_status_invariant (db : DB) (pid : Nat)
    (h : (update_project_status db pid).1.success = true) :
    statusMatchesTasks (update_project_status db pid).2 pid := by
  rw [update_project_status_success db pid h]
  exact statusMatchesTasks_setProjectStatus db pid

/-- C1: a successful `update_project_status(project_id)` leaves the
project's status equal to the spec's three-way rule (not_started / all
complete / otherwise in_progress) over its task set, and the same relation
holds at the owning project immediately after every successful
`create_task`, `delete_task`, and `update_task_status` call. -/
theorem project_status_rule_holds :
    (∀ (db : DB) (pid : Nat),
      (update_project_status db pid).1.success = true →
      statusMatchesTasks (update_project_status db pid).2 pid) ∧
    (∀ (db : DB) (today : Int) (newId : Nat) (raw : TaskInput),
      (create_task db today newId raw).1.success = true →
      statusMatchesTasks (create_task db today newId raw).2
        raw.project_id) ∧
    (∀ (db : DB) (tid : Nat) (task : Task), findTask db tid = some task →
      (delete_task db tid).1.success = true →
      statusMatchesTasks (delete_task db tid).2 task.project_id) ∧
    (∀ (db : DB) (tid : Nat) (task : Task), findTask db tid = some task →
      (update_task_status db tid).1.success = true →
      statusMatchesTasks (update_task_status db tid).2 task.project_id) := by
  refine ⟨update_project_status_invariant, ?_, ?_, ?_⟩
  · intro db today newId raw h
    simp only [create_task] at h ⊢
    by_cases h1 : raw.name = ""
    · rw [if_pos h1] at h
      simp [error_res] at h
    · rw [if_neg h1] at h ⊢
      by_cases h2 : ¬ (5 < (pyStrip raw.name).length ∧
          (pyStrip raw.name).length < 100)
      · rw [if_pos h2] at h
        simp [error_res] at h
      · rw [if_neg h2] at h ⊢
        by_cases h3 : raw.project_id = 0
        · rw [if_pos h3] at h
          simp [error_res] at h
        · rw [if_neg h3] at h ⊢
          by_cases h4 : raw.due_date < today
          · rw [if_pos h4] at h
            simp [error_res] at h
          · rw [if_neg h4] at h ⊢
            by_cases h5 : (update_project_status
                { db with tasks := db.tasks ++ [mkTask newId raw] }
                raw.project_id).1.success = true
            · rw [if_pos h5]
              exact update_project_status_invariant _ raw.project_id h5
            · rw [if_neg h5] at h
              simp [error_res] at h
  · intro db tid task hfind h
    simp only [delete_task] at h ⊢
    by_cases h1 : tid = 0
    · rw [if_pos h1] at h
      simp [error_res] at h
    · rw [if_neg h1] at h ⊢
      simp only [hfind] at h ⊢
      by_cases h5 : (update_project_status
          { db with tasks := db.tasks.eraseP (fun t => t.id = tid) }
          task.project_id).1.success = true
      · rw [if_pos h5]
        exact update_project_status_invariant _ task.project_id h5
      · rw [if_neg h5] at h
        simp [error_res] at h
  · intro db tid task hfind h
    simp only [update_task_status] at h ⊢
    by_cases h1 : tid = 0
    · rw [if_pos h1] at h
      simp [error_res] at h
    · rw [if_neg h1] at h ⊢
      simp only [hfind] at h ⊢
      split at h
      next hc =>
        rw [if_pos hc]
        exact update_project_status_invariant _ task.project_id hc
      next hc =>
        simp [error_res] at h

/-- Sample store with one project (id 5) owning one incomplete task
(id 7), used to witness the task-mutation claims. -/
def sampleTaskDB : DB :=
  { projects :=
      [⟨5, 1, 2, "Sample project", false, "", 0, 10, Status.in_progress⟩],
    tasks := [⟨7, "Sample task one", 5, 9, Difficulty.medium, false⟩] }

theorem project_status_rule_holds_witness :
    ((update_project_status sampleTaskDB 5).1.success = true ∧
     statusMatchesTasks (update_project_status sampleTaskDB 5).2 5) ∧
    ((create_task sampleTaskDB 0 8
        ⟨"Another task", 5, 9, Difficulty.easy⟩).1.success = true ∧
     statusMatchesTasks
       (create_task sampleTaskDB 0 8 ⟨"Another task", 5, 9,
         Difficulty.easy⟩).2 5) ∧
    (findTask sampleTaskDB 7 =
       some ⟨7, "Sample task one", 5, 9, Difficulty.medium, false⟩ ∧
     (delete_task sampleTaskDB 7).1.success = true ∧
     statusMatchesTasks (delete_task sampleTaskDB 7).2 5) ∧
    (findTask sampleTaskDB 7 =
       some ⟨7, "Sample task one", 5, 9, Difficulty.medium, false⟩ ∧
     (update_task_status sampleTaskDB 7).1.success = true ∧
     statusMatchesTasks (update_task_status sampleTaskDB 7).2 5) :=
  ⟨⟨by decide, project_status_rule_holds.1 sampleTaskDB 5 (by decide)⟩,
   ⟨by decide,
     project_status_rule_holds.2.1 sampleTaskDB 0 8
       ⟨"Another task", 5, 9, Difficulty.easy⟩ (by decide)⟩,
   ⟨by decide, by decide,
     project_status_rule_holds.2.2.1 sampleTaskDB 7
       ⟨7, "Sample task one", 5, 9, Difficulty.medium, false⟩ (by decide)
       (by decide)⟩,
   ⟨by decide, by decide,
     project_status_rule_holds.2.2.2 sampleTaskDB 7
       ⟨7, "Sample task one", 5, 9, Difficulty.medium, false⟩ (by decide)
       (by decide)⟩⟩

/-! Claim C3. -/

/-- C3: each task mutation is atomic with the nested project-status
recomputation: whenever `create_task`, `delete_task` or
`update_task_status` reports failure (in particular when the nested
`update_project_status` step fails), the committed store is unchanged — no
created task, no deletion, no toggled flag; on success the task-side
change and the recomputed status are committed together. -/
theorem task_mutation_atomicity :
    (∀ (db : DB) (today : Int) (newId : Nat) (raw : TaskInput),
      (create_task db today newId raw).1.success = false →
      (create_task db today newId raw).2 = db) ∧
    (∀ (db : DB) (today : Int) (newId : Nat) (raw : TaskInput),
      (create_task db today newId raw).1.success = true →
      (create_task db today newId raw).2.tasks =
        db.tasks ++ [mkTask newId raw] ∧
      statusMatchesTasks (create_task db today newId raw).2
        raw.project_id) ∧
    (∀ (db : DB) (tid : Nat),
      (delete_task db tid).1.success = false →
      (delete_task db tid).2 = db) ∧
    (∀ (db : DB) (tid : Nat) (task : Task), findTask db tid = some task →
      (delete_task db tid).1.success = true →
      (delete_task db tid).2.tasks =
        db.tasks.eraseP (fun t => t.id = tid) ∧
      statusMatchesTasks (delete_task db tid).2 task.project_id) ∧
    (∀ (db : DB) (tid : Nat),
      (update_task_status db tid).1.success = false →
      (update_task_status db tid).2 = db) ∧
    (∀ (db : DB) (tid : Nat) (task : Task), findTask db tid = some task →
      (update_task_status db tid).1.success = true →
      (update_task_status db tid).2.tasks =
        db.tasks.map (fun t => if t.id = tid then
          { t with is_complete := !task.is_complete } else t) ∧
      statusMatchesTasks (update_task_status db tid).2 task.project_id) := by
  refine ⟨?_, ?_, ?_, ?_, ?_, ?_⟩
  · intro db today newId raw h
    simp only [create_task] at h ⊢
    split
    · rfl
    split
    · rfl
    split
    · rfl
    split
    · rfl
    rw [if_neg (by assumption), if_neg (by assumption),
      if_neg (by assumption), if_neg (by assumption)] at h
    split at h
    next hc => simp [success_res] at h
    next hc => rw [if_neg hc]
  · intro db today newId raw h
    simp only [create_task] at h ⊢
    by_cases h1 : raw.name = ""
    · rw [if_pos h1] at h
      simp [error_res] at h
    · rw [if_neg h1] at h ⊢
      by_cases h2 : ¬ (5 < (pyStrip raw.name).length ∧
          (pyStrip raw.name).length < 100)
      · rw [if_pos h2] at h
        simp [error_res] at h
      · rw [if_neg h2] at h ⊢
        by_cases h3 : raw.project_id = 0
        · rw [if_pos h3] at h
          simp [error_res] at h
        · rw [if_neg h3] at h ⊢
          by_cases h4 : raw.due_date < today
          · rw [if_pos h4] at h
            simp [error_res] at h
          · rw [if_neg h4] at h ⊢
            split at h
            next hc =>
              rw [if_pos hc]
              exact ⟨update_project_status_tasks _ _,
                update_project_status_invariant _ raw.project_id hc⟩
            next hc =>
              simp [error_res] at h
  · intro db tid h
    simp only [delete_task] at h ⊢
    by_cases h1 : tid = 0
    · rw [if_pos h1]
    · rw [if_neg h1] at h ⊢
      obtain hfp | ⟨task, hfp⟩ :
          findTask db tid = none ∨ ∃ t, findTask db tid = some t := by
        cases findTask db tid
        · exact Or.inl rfl
        · exact Or.inr ⟨_, rfl⟩
      · rw [hfp]
      · simp only [hfp] at h ⊢
        split at h
        next hc => simp [success_res] at h
        next hc => rw [if_neg hc]
  · intro db tid task hfind h
    simp only [delete_task] at h ⊢
    by_cases h1 : tid = 0
    · rw [if_pos h1] at h
      simp [error_res] at h
    · rw [if_neg h1] at h ⊢
      simp only [hfind] at h ⊢
      split at h
      next hc =>
        rw [if_pos hc]
        exact ⟨update_project_status_tasks _ _,
          update_project_status_invariant _ task.project_id hc⟩
      next hc =>
        simp [error_res] at h
  · intro db tid h
    simp only [update_task_status] at h ⊢
    by_cases h1 : tid = 0
    · rw [if_pos h1]
    · rw [if_neg h1] at h ⊢
      obtain hfp | ⟨task, hfp⟩ :
          findTask db tid = none ∨ ∃ t, findTask db tid = some t := by
        cases findTask db tid
        · exact Or.inl rfl
        · exact Or.inr ⟨_, rfl⟩
      · rw [hfp]
      · simp only [hfp] at h ⊢
        split at h
        next hc => simp [success_res] at h
        next hc => rw [if_neg hc]
  · intro db tid task hfind h
    simp only [update_task_status] at h ⊢
    by_cases h1 : tid = 0
    · rw [if_pos h1] at h
      simp [error_res] at h
    · rw [if_neg h1] at h ⊢
      simp only [hfind] at h ⊢
      split at h
      next hc =>
        rw [if_pos hc]
        exact ⟨update_project_status_tasks _ _,
          update_project_status_invariant _ task.project_id hc⟩
      next hc =>
        simp [error_res] at h

/-- Store with a task whose project does not exist: the nested
`update_project_status` step fails and forces a rollback. -/
def danglingTaskDB : DB :=
  { projects := [],
    tasks := [⟨7, "Sample task one", 9, 9, Difficulty.medium, false⟩] }

theorem task_mutation_atomicity_witness :
    ((create_task sampleTaskDB 0 8
        ⟨"Another task", 9, 9, Difficulty.easy⟩).1.success = false ∧
     (create_task sampleTaskDB 0 8
        ⟨"Another task", 9, 9, Difficulty.easy⟩).2 = sampleTaskDB) ∧
    ((create_task sampleTaskDB 0 8
        ⟨"Another task", 5, 9, Difficulty.easy⟩).1.success = true ∧
     ((create_task sampleTaskDB 0 8
         ⟨"Another task", 5, 9, Difficulty.easy⟩).2.tasks =
        sampleTaskDB.tasks ++
          [mkTask 8 ⟨"Another task", 5, 9, Difficulty.easy⟩] ∧
      statusMatchesTasks
        (create_task sampleTaskDB 0 8
          ⟨"Another task", 5, 9, Difficulty.easy⟩).2 5)) ∧
    ((delete_task danglingTaskDB 7).1.success = false ∧
     (delete_task danglingTaskDB 7).2 = danglingTaskDB) ∧
    ((delete_task sampleTaskDB 7).1.success = true ∧
     ((delete_task sampleTaskDB 7).2.tasks =
        sampleTaskDB.tasks.eraseP (fun t => t.id = 7) ∧
      statusMatchesTasks (delete_task sampleTaskDB 7).2 5)) ∧
    ((update_task_status danglingTaskDB 7).1.success = false ∧
     (update_task_status danglingTaskDB 7).2 = danglingTaskDB) ∧
    ((update_task_status sampleTaskDB 7).1.success = true ∧
     ((update_task_status sampleTaskDB 7).2.tasks =
        sampleTaskDB.tasks.map (fun t => if t.id = 7 then
          { t with is_complete := !false } else t) ∧
      statusMatchesTasks (update_task_status sampleTaskDB 7).2 5)) :=
  ⟨⟨by decide,
     task_mutation_atomicity.1 sampleTaskDB 0 8
       ⟨"Another task", 9, 9, Difficulty.easy⟩ (by decide)⟩,
   ⟨by decide,
     task_mutation_atomicity.2.1 sampleTaskDB 0 8
       ⟨"Another task", 5, 9, Difficulty.easy⟩ (by decide)⟩,
   ⟨by decide, task_mutation_atomicity.2.2.1 danglingTaskDB 7 (by decide)⟩,
   ⟨by decide,
     task_mutation_atomicity.2.2.2.1 sampleTaskDB 7
       ⟨7, "Sample task one", 5, 9, Difficulty.medium, false⟩ (by decide)
       (by decide)⟩,
   ⟨by decide,
     task_mutation_atomicity.2.2.2.2.1 danglingTaskDB 7 (by decide)⟩,
   ⟨by decide,
     task_mutation_atomicity.2.2.2.2.2 sampleTaskDB 7
       ⟨7, "Sample task one", 5, 9, Difficulty.medium, false⟩ (by decide)
       (by decide)⟩⟩

/-! Claim C6. -/

/-- One step of the fold behind `firstMinByTimeLeft`. -/
theorem firstMinByTimeLeft_cons (today : Int) (p q : Project)
    (qs : List Project) :
    firstMinByTimeLeft today p (q :: qs) =
      firstMinByTimeLeft today
        (if time_left q today < time_left p today then q else p) qs := rfl

/-- The head of the stable sort by `time_left` is one of the projects. -/
theorem firstMinByTimeLeft_mem (today : Int) (p : Project)
    (ps : List Project) : firstMinByTimeLeft today p ps ∈ p :: ps := by
  induction ps generalizing p with
  | nil => simp [firstMinByTimeLeft]
  | cons q qs ih =>
      rw [firstMinByTimeLeft_cons]
      by_cases h : time_left q today < time_left p today
      · rw [if_pos h]
        exact List.mem_cons_of_mem p (ih q)
      · rw [if_neg h]
        rcases List.mem_cons.mp (ih p) with h1 | h2
        · rw [h1]
          exact List.mem_cons_self _ _
        · exact List.mem_cons_of_mem p (List.mem_cons_of_mem q h2)

/-- The head of the stable sort by `time_left` attains the minimal
`time_left` value. -/
theorem firstMinByTimeLeft_le (today : Int) (p : Project)
    (ps : List Project) :
    ∀ q ∈ p :: ps,
      time_left (firstMinByTimeLeft today p ps) today ≤
        time_left q today := by
  induction ps generalizing p with
  | nil =>
      intro q hq
      rcases List.mem_cons.mp hq with h1 | h2
      · rw [h1]
        simp [firstMinByTimeLeft]
      · simp at h2
  | cons r rs ih =>
      intro q hq
      rw [firstMinByTimeLeft_cons]
      by_cases h : time_left r today < time_left p today
      · rw [if_pos h]
        rcases List.mem_cons.mp hq with h1 | h2
        · have h3 := ih r r (List.mem_cons_self r rs)
          rw [h1]
          omega
        · exact ih r q h2
      · rw [if_neg h]
        rcases List.mem_cons.mp hq with h1 | h2
        · have h3 := ih p p (List.mem_cons_self p rs)
          rw [h1]
          exact h3
        · rcases List.mem_cons.mp h2 with h3 | h4
          · have h5 := ih p p (List.mem_cons_self p rs)
            rw [h3]
            omega
          · exact ih p q (List.mem_cons_of_mem p h4)

/-- C6: `get_active_project(identity)` returns success with a null
payload and no state change when the identity has no projects; returns the
(first) currently active project with no state change when one is active;
and otherwise activates and returns the project with the smallest
days-remaining (`time_left`) value via `set_default_project`, committing
exactly that activation. -/
theorem get_active_project_spec :
    (∀ (db : DB) (today : Int) (iid : Nat), iid ≠ 0 →
      projectsOf db iid = [] →
      get_active_project db today iid =
        (success_res "No projects found!", none, db)) ∧
    (∀ (db : DB) (today : Int) (iid : Nat) (a : Project)
        (rest : List Project), iid ≠ 0 →
      (projectsOf db iid).filter (fun p => p.is_active) = a :: rest →
      get_active_project db today iid =
        (success_res "Project found!", some a, db)) ∧
    (∀ (db : DB) (today : Int) (iid : Nat), iid ≠ 0 →
      projectsOf db iid ≠ [] →
      (projectsOf db iid).filter (fun p => p.is_active) = [] →
      (get_active_project db today iid).1.success = true ∧
      ∃ p ∈ projectsOf db iid,
        (∀ q ∈ projectsOf db iid,
          time_left p today ≤ time_left q today) ∧
        (get_active_project db today iid).2.1 =
          some { p with is_active := true } ∧
        (get_active_project db today iid).2.2 =
          activateProject db p.id) := by
  refine ⟨?_, ?_, ?_⟩
  · intro db today iid hi hempty
    unfold get_active_project
    rw [if_neg hi, hempty]
  · intro db today iid a rest hi hfilter
    cases hp : projectsOf db iid with
    | nil =>
        rw [hp] at hfilter
        simp at hfilter
    | cons p ps =>
        rw [hp] at hfilter
        unfold get_active_project
        rw [if_neg hi, hp, hfilter]
  · intro db today iid hi hne hfl
    cases hp : projectsOf db iid with
    | nil => exact absurd hp hne
    | cons p ps =>
        rw [hp] at hfl
        have hred : get_active_project db today iid =
            (success_res "Project found!",
              some { firstMinByTimeLeft today p ps with is_active := true },
              activateProject db (firstMinByTimeLeft today p ps).id) := by
          unfold get_active_project set_default_project
          simp only [if_neg hi]
          rw [hp, hfl]
          rfl
        exact ⟨by rw [hred]; rfl, firstMinByTimeLeft today p ps,
          firstMinByTimeLeft_mem today p ps,
          firstMinByTimeLeft_le today p ps,
          by rw [hred], by rw [hred]⟩

/-- Store for the C6 witness: identity 2 has two inactive projects,
project 6 ending sooner than project 5; identity 3 has none. -/
def fallbackDB : DB :=
  { projects :=
      [⟨5, 1, 2, "Longer project", false, "", 0, 10, Status.not_started⟩,
       ⟨6, 1, 2, "Shorter project", false, "", 0, 4, Status.not_started⟩],
    tasks := [] }

theorem get_active_project_spec_witness :
    ((3 : Nat) ≠ 0 ∧ projectsOf fallbackDB 3 = [] ∧
     get_active_project fallbackDB 0 3 =
       (success_res "No projects found!", none, fallbackDB)) ∧
    ((2 : Nat) ≠ 0 ∧
     (projectsOf sampleDB 2).filter (fun p => p.is_active) =
       [⟨5, 1, 2, "Sample project", true, "", 0, 10, Status.not_started⟩] ∧
     get_active_project sampleDB 0 2 =
       (success_res "Project found!",
         some ⟨5, 1, 2, "Sample project", true, "", 0, 10,
           Status.not_started⟩, sampleDB)) ∧
    ((2 : Nat) ≠ 0 ∧ projectsOf fallbackDB 2 ≠ [] ∧
     (projectsOf fallbackDB 2).filter (fun p => p.is_active) = [] ∧
     ((get_active_project fallbackDB 0 2).1.success = true ∧
      ∃ p ∈ projectsOf fallbackDB 2,
        (∀ q ∈ projectsOf fallbackDB 2,
          time_left p 0 ≤ time_left q 0) ∧
        (get_active_project fallbackDB 0 2).2.1 =
          some { p with is_active := true } ∧
        (get_active_project fallbackDB 0 2).2.2 =
          activateProject fallbackDB p.id)) :=
  ⟨⟨by decide, by decide,
     get_active_project_spec.1 fallbackDB 0 3 (by decide) (by decide)⟩,
   ⟨by decide, by decide,
     get_active_project_spec.2.1 sampleDB 0 2
       ⟨5, 1, 2, "Sample project", true, "", 0, 10, Status.not_started⟩ []
       (by decide) (by decide)⟩,
   ⟨by decide, by decide, by decide,
     get_active_project_spec.2.2 fallbackDB 0 2 (by decide) (by decide)
       (by decide)⟩⟩

/-! Claim C2. -/

/-- C2 counterexample: profile 1 starts with exactly identity 1 active;
`swap_active_identities(profile, current=2, new=3)` — a call whose
`current` is not the currently active identity — deactivates identity 2
(a no-op) and activates identity 3, leaving identities 1 and 3 both
active, so the at-most-one-active property is violated by a sequence of
the three listed calls. -/
theorem swap_breaks_single_active_counterexample :
    atMostOneActive sampleIdentities 1 ∧
    ¬ atMostOneActive
      (swap_active_identites sampleIdentities 1 (some 2) (some 3)).2 1 := by
  decide

/-- Membership in a profile's identity collection. -/
theorem mem_identitiesOf (s : List ProfileIdentity) (pid : Nat)
    (x : ProfileIdentity) :
    x ∈ identitiesOf s pid ↔ x ∈ s ∧ x.profile_id = pid := by
  simp [identitiesOf, List.mem_filter]

/-- If every active identity of the profile carries one fixed id, at most
one is active. -/
theorem atMostOne_of_fixed_id (s : List ProfileIdentity) (pid a : Nat)
    (h : ∀ x ∈ identitiesOf s pid, x.is_active = true → x.id = a) :
    atMostOneActive s pid := by
  intro x hx y hy hxa hya
  rw [h x hx hxa, h y hy hya]

/-- With unique ids, an identity of another profile never carries the id
of one of profile `p`'s identities. -/
theorem id_ne_of_other_profile (s : List ProfileIdentity)
    (hnd : nodupIds s) (x t : ProfileIdentity) (hx : x ∈ s) (ht : t ∈ s)
    (hprof : x.profile_id ≠ t.profile_id) : x.id ≠ t.id := by
  intro h
  exact hprof (by rw [eq_of_id_eq s hnd x hx t ht h])

/-- A well-formed `swap_active_identities` call preserves the at-most-one
active invariant of every profile. -/
theorem swap_active_identites_preserves (s : List ProfileIdentity)
    (pid p2 : Nat) (c n : Option Nat) (hnd : nodupIds s)
    (hwf : wfIdOp s (IdOp.swapA p2 c n) = true)
    (hinv : atMostOneActive s pid) :
    atMostOneActive (swap_active_identites s p2 c n).2 pid := by
  cases c with
  | none => simp [wfIdOp] at hwf
  | some ci =>
      cases n with
      | none => simp [wfIdOp] at hwf
      | some ni =>
          simp only [wfIdOp, Bool.and_eq_true, List.any_eq_true,
            List.all_eq_true, Bool.or_eq_true, Bool.not_eq_true',
            decide_eq_true_eq] at hwf
          obtain ⟨⟨⟨xc, hxc, hxcid⟩, ⟨xn, hxn, hxnid⟩⟩, hcur⟩ := hwf
          have hstate : (swap_active_identites s p2 (some ci) (some ni)).2 =
              (s.map (fun i => if i.id = ci then { i with is_active := false }
                else i)).map
              (fun i => if i.id = ni then { i with is_active := true }
                else i) := rfl
          have hfprof : ∀ i : ProfileIdentity,
              ((fun i => if i.id = ci then { i with is_active := false }
                else i) i).profile_id = i.profile_id := by
            intro i
            by_cases h : i.id = ci <;> simp [h]
          have hgprof : ∀ i : ProfileIdentity,
              ((fun i => if i.id = ni then { i with is_active := true }
                else i) i).profile_id = i.profile_id := by
            intro i
            by_cases h : i.id = ni <;> simp [h]
          rw [hstate]
          by_cases hpp : p2 = pid
          · subst hpp
            apply atMostOne_of_fixed_id _ _ ni
            intro x hx hxact
            rw [identitiesOf_map _ _ _ hgprof,
              identitiesOf_map _ _ _ hfprof] at hx
            rw [List.mem_map] at hx
            obtain ⟨x1, hx1, hgx⟩ := hx
            rw [List.mem_map] at hx1
            obtain ⟨x0, hx0, hfx⟩ := hx1
            by_cases h1 : x1.id = ni
            · rw [← hgx]
              simp [h1]
            · rw [← hgx] at hxact ⊢
              simp only [if_neg h1] at hxact ⊢
              rw [← hfx] at hxact ⊢
              by_cases h2 : x0.id = ci
              · simp [h2] at hxact
              · simp only [if_neg h2] at hxact ⊢
                rcases hcur x0 hx0 with h3 | h3
                · rw [hxact] at h3
                  cases h3
                · exact absurd h3 h2
          · have hciq : ∀ x ∈ identitiesOf s pid, x.id ≠ ci := by
              intro x hx
              obtain ⟨hxs, hxp⟩ := (mem_identitiesOf s pid x).mp hx
              obtain ⟨hcs, hcp⟩ := (mem_identitiesOf s p2 xc).mp hxc
              rw [← hxcid]
              exact id_ne_of_other_profile s hnd x xc hxs hcs
                (by rw [hxp, hcp]; exact fun h => hpp h.symm)
            have hniq : ∀ x ∈ identitiesOf s pid, x.id ≠ ni := by
              intro x hx
              obtain ⟨hxs, hxp⟩ := (mem_identitiesOf s pid x).mp hx
              obtain ⟨hns, hnp⟩ := (mem_identitiesOf s p2 xn).mp hxn
              rw [← hxnid]
              exact id_ne_of_other_profile s hnd x xn hxs hns
                (by rw [hxp, hnp]; exact fun h => hpp h.symm)
            intro x hx y hy hxact hyact
            rw [identitiesOf_map _ _ _ hgprof,
              identitiesOf_map _ _ _ hfprof] at hx hy
            have hfix : ((identitiesOf s pid).map
                (fun i => if i.id = ci then { i with is_active := false }
                  else i)).map
                (fun i => if i.id = ni then { i with is_active := true }
                  else i) = identitiesOf s pid := by
              rw [List.map_map]
              conv_rhs => rw [← List.map_id (identitiesOf s pid)]
              apply List.map_congr_left
              intro a ha
              simp [if_neg (hciq a ha), if_neg (hniq a ha)]
            rw [hfix] at hx hy
            exact hinv x hx y hy hxact hyact

/-- A well-formed `set_identity` call preserves the at-most-one active
invariant of every profile. -/
theorem set_identity_preserves (s : List ProfileIdentity) (pid p2 iid : Nat)
    (hnd : nodupIds s) (hwf : wfIdOp s (IdOp.set p2 iid) = true)
    (hinv : atMostOneActive s pid) :
    atMostOneActive (set_identity s p2 iid).2.2 pid := by
  simp only [wfIdOp, List.any_eq_true, decide_eq_true_eq] at hwf
  obtain ⟨xt, hxt, hxtid⟩ := hwf
  cases hfind : s.find? (fun i => i.id = iid) with
  | none =>
      unfold set_identity
      rw [hfind]
      exact hinv
  | some identity =>
      by_cases hp0 : p2 = 0
      · have hstate : (set_identity s p2 iid).2.2 = s := by
          unfold set_identity deactivate_identities
          rw [hfind, if_pos hp0]
          rfl
        rw [hstate]
        exact hinv
      · have hstate : (set_identity s p2 iid).2.2 =
            (s.map (fun i => if i.profile_id = p2 then
              { i with is_active := false } else i)).map
            (fun i => if i.id = iid then { i with is_active := true }
              else i) := by
          unfold set_identity deactivate_identities
          rw [hfind, if_neg hp0]
          rfl
        rw [hstate]
        have hfprof : ∀ i : ProfileIdentity,
            ((fun i => if i.profile_id = p2 then { i with is_active := false }
              else i) i).profile_id = i.profile_id := by
          intro i
          by_cases h : i.profile_id = p2 <;> simp [h]
        have hgprof : ∀ i : ProfileIdentity,
            ((fun i => if i.id = iid then { i with is_active := true }
              else i) i).profile_id = i.profile_id := by
          intro i
          by_cases h : i.id = iid <;> simp [h]
        by_cases hpp : p2 = pid
        · subst hpp
          apply atMostOne_of_fixed_id _ _ iid
          intro x hx hxact
          rw [identitiesOf_map _ _ _ hgprof,
            identitiesOf_map _ _ _ hfprof] at hx
          rw [List.mem_map] at hx
          obtain ⟨x1, hx1, hgx⟩ := hx
          rw [List.mem_map] at hx1
          obtain ⟨x0, hx0, hfx⟩ := hx1
          have hx0p : x0.profile_id = p2 :=
            ((mem_identitiesOf s p2 x0).mp hx0).2
          by_cases h1 : x1.id = iid
          · rw [← hgx]
            simp [h1]
          · rw [← hgx] at hxact
            simp only [if_neg h1] at hxact
            rw [← hfx] at hxact
            simp only [if_pos hx0p] at hxact
            cases hxact
        · have hiidq : ∀ x ∈ identitiesOf s pid, x.id ≠ iid := by
            intro x hx
            obtain ⟨hxs, hxp⟩ := (mem_identitiesOf s pid x).mp hx
            obtain ⟨hts, htp⟩ := (mem_identitiesOf s p2 xt).mp hxt
            rw [← hxtid]
            exact id_ne_of_other_profile s hnd x xt hxs hts
              (by rw [hxp, htp]; exact fun h => hpp h.symm)
          intro x hx y hy hxact hyact
          rw [identitiesOf_map _ _ _ hgprof,
            identitiesOf_map _ _ _ hfprof] at hx hy
          have hfix : ((identitiesOf s pid).map
              (fun i => if i.profile_id = p2 then
                { i with is_active := false } else i)).map
              (fun i => if i.id = iid then { i with is_active := true }
                else i) = identitiesOf s pid := by
            rw [List.map_map]
            conv_rhs => rw [← List.map_id (identitiesOf s pid)]
            apply List.map_congr_left
            intro a ha
            have hap : a.profile_id ≠ p2 := by
              rw [((mem_identitiesOf s pid a).mp ha).2]
              exact fun h => hpp h.symm
            simp [if_neg hap, if_neg (hiidq a ha)]
          rw [hfix] at hx hy
          exact hinv x hx y hy hxact hyact

/-- `set_default_identity` preserves the at-most-one active invariant of
every profile. -/
theorem set_default_identity_preserves (s : List ProfileIdentity)
    (pid p2 : Nat) (hnd : nodupIds s) (hinv : atMostOneActive s pid) :
    atMostOneActive (set_default_identity s p2).2.2 pid := by
  by_cases hp0 : p2 = 0
  · have hstate : (set_default_identity s p2).2.2 = s := by
      unfold set_default_identity
      rw [if_pos hp0]
    rw [hstate]
    exact hinv
  · by_cases hact : (get_active_identity s p2).1.success = true
    · have hstate : (set_default_identity s p2).2.2 = s := by
        unfold set_default_identity
        rw [if_neg hp0, if_pos hact]
      rw [hstate]
      exact hinv
    · have hnoact : ∀ x ∈ identitiesOf s p2, x.is_active = false := by
        unfold get_active_identity at hact
        rw [if_neg hp0] at hact
        cases hflt : (identitiesOf s p2).filter (fun i => i.is_active) with
        | nil =>
            intro x hx
            have := List.filter_eq_nil_iff.mp hflt x hx
            simpa using this
        | cons a as =>
            rw [hflt] at hact
            simp [success_res] at hact
      cases hids : identitiesOf s p2 with
      | nil =>
          have hstate : (set_default_identity s p2).2.2 = s := by
            unfold set_default_identity
            rw [if_neg hp0, if_neg hact, hids]
          rw [hstate]
          exact hinv
      | cons d rest =>
          have hstate : (set_default_identity s p2).2.2 =
              s.map (fun i => if i.id = d.id then { i with is_active := true }
                else i) := by
            unfold set_default_identity
            rw [if_neg hp0, if_neg hact, hids]
          rw [hstate]
          have hdmem : d ∈ identitiesOf s p2 := by
            rw [hids]
            exact List.mem_cons_self d rest
          have hgprof : ∀ i : ProfileIdentity,
              ((fun i => if i.id = d.id then { i with is_active := true }
                else i) i).profile_id = i.profile_id := by
            intro i
            by_cases h : i.id = d.id <;> simp [h]
          by_cases hpp : p2 = pid
          · subst hpp
            apply atMostOne_of_fixed_id _ _ d.id
            intro x hx hxact
            rw [identitiesOf_map _ _ _ hgprof] at hx
            rw [List.mem_map] at hx
            obtain ⟨x0, hx0, hgx⟩ := hx
            by_cases h1 : x0.id = d.id
            · rw [← hgx]
              simp [h1]
            · rw [← hgx] at hxact
              simp only [if_neg h1] at hxact
              rw [hnoact x0 hx0] at hxact
              cases hxact
          · have hdq : ∀ x ∈ identitiesOf s pid, x.id ≠ d.id := by
              intro x hx
              obtain ⟨hxs, hxp⟩ := (mem_identitiesOf s pid x).mp hx
              obtain ⟨hds, hdp⟩ := (mem_identitiesOf s p2 d).mp hdmem
              exact id_ne_of_other_profile s hnd x d hxs hds
                (by rw [hxp, hdp]; exact fun h => hpp h.symm)
            intro x hx y hy hxact hyact
            rw [identitiesOf_map _ _ _ hgprof] at hx hy
            have hfix : (identitiesOf s pid).map
                (fun i => if i.id = d.id then { i with is_active := true }
                  else i) = identitiesOf s pid := by
              conv_rhs => rw [← List.map_id (identitiesOf s pid)]
              apply List.map_congr_left
              intro a ha
              simp [if_neg (hdq a ha)]
            rw [hfix] at hx hy
            exact hinv x hx y hy hxact hyact

/-- No mutator changes the key column of the identities table. -/
theorem applyIdOp_ids (s : List ProfileIdentity) (op : IdOp) :
    (applyIdOp s op).map (fun i => i.id) = s.map (fun i => i.id) := by
  cases op with
  | set p2 iid =>
      simp only [applyIdOp]
      cases hfind : s.find? (fun i => i.id = iid) with
      | none =>
          unfold set_identity
          rw [hfind]
      | some identity =>
          by_cases hp0 : p2 = 0
          · have hstate : (set_identity s p2 iid).2.2 = s := by
              unfold set_identity deactivate_identities
              rw [hfind, if_pos hp0]
              rfl
            rw [hstate]
          · have hstate : (set_identity s p2 iid).2.2 =
                (s.map (fun i => if i.profile_id = p2 then
                  { i with is_active := false } else i)).map
                (fun i => if i.id = iid then { i with is_active := true }
                  else i) := by
              unfold set_identity deactivate_identities
              rw [hfind, if_neg hp0]
              rfl
            rw [hstate]
            rw [ids_map _ _ (fun i => by
              by_cases h : i.id = iid <;> simp [h])]
            rw [ids_map _ _ (fun i => by
              by_cases h : i.profile_id = p2 <;> simp [h])]
  | swapA p2 c n =>
      cases c with
      | none => rfl
      | some ci =>
          cases n with
          | none => rfl
          | some ni =>
              simp only [applyIdOp, swap_active_identites]
              rw [ids_map _ _ (fun i => by
                by_cases h : i.id = ni <;> simp [h])]
              rw [ids_map _ _ (fun i => by
                by_cases h : i.id = ci <;> simp [h])]
  | setDefault p2 =>
      simp only [applyIdOp]
      by_cases hp0 : p2 = 0
      · have hstate : (set_default_identity s p2).2.2 = s := by
          unfold set_default_identity
          rw [if_pos hp0]
        rw [hstate]
      · by_cases hact : (get_active_identity s p2).1.success = true
        · have hstate : (set_default_identity s p2).2.2 = s := by
            unfold set_default_identity
            rw [if_neg hp0, if_pos hact]
          rw [hstate]
        · cases hids : identitiesOf s p2 with
          | nil =>
              have hstate : (set_default_identity s p2).2.2 = s := by
                unfold set_default_identity
                rw [if_neg hp0, if_neg hact, hids]
              rw [hstate]
          | cons d rest =>
              have hstate : (set_default_identity s p2).2.2 =
                  s.map (fun i => if i.id = d.id then
                    { i with is_active := true } else i) := by
                unfold set_default_identity
                rw [if_neg hp0, if_neg hact, hids]
              rw [hstate]
              rw [ids_map _ _ (fun i => by
                by_cases h : i.id = d.id <;> simp [h])]

/-- No mutator introduces a duplicate primary key. -/
theorem nodupIds_applyIdOp (s : List ProfileIdentity) (op : IdOp)
    (hnd : nodupIds s) : nodupIds (applyIdOp s op) := by
  unfold nodupIds at hnd ⊢
  rw [applyIdOp_ids]
  exact hnd

/-- Any single well-formed call preserves the at-most-one-active
invariant of every profile. -/
theorem applyIdOp_preserves (s : List ProfileIdentity) (pid : Nat)
    (op : IdOp) (hnd : nodupIds s) (hwf : wfIdOp s op = true)
    (hinv : atMostOneActive s pid) :
    atMostOneActive (applyIdOp s op) pid := by
  cases op with
  | set p2 iid => exact set_identity_preserves s pid p2 iid hnd hwf hinv
  | swapA p2 c n =>
      exact swap_active_identites_preserves s pid p2 c n hnd hwf hinv
  | setDefault p2 => exact set_default_identity_preserves s pid p2 hnd hinv

/-- C2 amended: assume the table's primary keys are unique.  For every
profile whose identities start with at most one active, the at-most-one
active property still holds after any sequence of well-formed
`set_identity`, `swap_active_identities` and `set_default_identity` calls
— where well-formed means each `set_identity` targets an identity of the
profile it is called for, and each `swap_active_identities` passes both
arguments, both identities of its profile, with `current` covering every
currently active identity of that profile.  (Without the condition on
`current` the original claim is false: see the counterexample, where a
swap whose `current` is not the active identity leaves two identities
active.) -/
theorem active_identity_invariant_wf_sequences :
    ∀ (ops : List IdOp) (s : List ProfileIdentity) (pid : Nat),
      nodupIds s → wfIdOps s ops = true → atMostOneActive s pid →
      atMostOneActive (applyIdOps s ops) pid := by
  intro ops
  induction ops with
  | nil =>
      intro s pid _ _ hinv
      exact hinv
  | cons op rest ih =>
      intro s pid hnd hwf hinv
      simp only [wfIdOps, Bool.and_eq_true] at hwf
      exact ih (applyIdOp s op) pid (nodupIds_applyIdOp s op hnd) hwf.2
        (applyIdOp_preserves s pid op hnd hwf.1 hinv)

/-- Witness for C2's amended statement: a concrete well-formed sequence —
a swap passing the genuinely active identity, a default call, then a
set_identity on the same profile — applied to the sample store. -/
def sampleIdOps : List IdOp :=
  [IdOp.swapA 1 (some 1) (some 2), IdOp.setDefault 1, IdOp.set 1 3]

theorem active_identity_invariant_wf_sequences_witness :
    nodupIds sampleIdentities ∧
    wfIdOps sampleIdentities sampleIdOps = true ∧
    atMostOneActive sampleIdentities 1 ∧
    atMostOneActive (applyIdOps sampleIdentities sampleIdOps) 1 :=
  ⟨by decide, by decide, by decide,
    active_identity_invariant_wf_sequences sampleIdOps sampleIdentities 1
      (by decide) (by decide) (by decide)⟩

end Fssd
